import Mathlib

/-!
Verification development for the debug adapter bridge
(`FirefoxDebugSession` and its actor proxies).

The definitions below are a shallow embedding of the TypeScript source:

* the `onThreadState` handler installed by `FirefoxDebugSession.attachThread`
  (blackbox gate, hit-count breakpoint gate, debugger-eval exception gate,
  the `resumed` branch),
* `FirefoxDebugSession.sendStoppedEvent`,
* the `onTargetDestroyed` / `onDestroyed` handlers installed by
  `FirefoxDebugSession.attachDescriptor`,
* `FirefoxDebugSession.disconnectFirefoxAndCleanup`,
* the `onInit` handler of `FirefoxDebugSession.start`,
* `DescriptorActorProxy.getWatcher` over the cached-request primitive,
* `RootActorProxy.receiveResponse`.

JavaScript truthiness on optional strings / numbers is made explicit with
`jsTruthyStr` / `jsTruthyNat`; JS `Map`s are embedded as association lists
whose `set` operation replaces the previous binding for the key.
-/

/-- Preview carried by an object grip (`exceptionGrip.preview`). -/
structure Preview where
  kind : String
  message : String
deriving DecidableEq, Repr

/-- The `exception` field of a `ThreadPausedReason`: either a plain string or
a grip object carrying a `type` tag, a `class` and an optional preview. -/
inductive ExceptionValue where
  | str (s : String)
  | grip (ty : String) (cls : String) (preview : Option Preview)
deriving DecidableEq, Repr

/-- `FirefoxDebugProtocol.ThreadPausedReason`: `type` is required, `actors`
and `exception` are optional. -/
structure ThreadPausedReason where
  type : String
  actors : Option (List String)
  exception : Option ExceptionValue
deriving DecidableEq, Repr

/-- The part of a `SourceAdapter` consulted by the paused handler. -/
structure SourceAdapterModel where
  isBlackBoxed : Bool
  path : Option String
  introductionType : Option String
deriving DecidableEq, Repr

/-- `event.frame.where` after source maps were applied: the source actor name
and the position. -/
structure PausedLocation where
  actor : String
  line : Nat
  column : Option Nat
deriving DecidableEq, Repr

/-- The `actualLocation` recorded on a realized breakpoint. -/
structure ActualLocation where
  line : Nat
  column : Option Nat
deriving DecidableEq, Repr

/-- The part of the breakpoint manager's per-breakpoint info used by the
hit-count gate. -/
structure BreakpointInfo where
  actualLocation : Option ActualLocation
  hitLimit : Option Nat
  hitCount : Nat
deriving DecidableEq, Repr

/-- JS truthiness of an optional string (`undefined` and `""` are falsy). -/
def jsTruthyStr : Option String → Bool
  | some s => s != ""
  | none => false

/-- JS truthiness of an optional number (`undefined` and `0` are falsy). -/
def jsTruthyNat : Option Nat → Bool
  | some n => n != 0
  | none => false

/-- The predicate of the `find` call of the hit-count gate:
`bpInfo.actualLocation && bpInfo.actualLocation.line === sourceLocation.line
&& bpInfo.actualLocation.column === sourceLocation.column`. -/
def bpMatches (loc : PausedLocation) (bp : BreakpointInfo) : Bool :=
  match bp.actualLocation with
  | some al => al.line == loc.line && al.column == loc.column
  | none => false

/-- `breakpointInfo.hitCount++` mutates the object found by `find`, i.e. the
first matching entry of the manager's list. -/
def incrementHit (loc : PausedLocation) : List BreakpointInfo → List BreakpointInfo
  | [] => []
  | bp :: bps =>
    if bpMatches loc bp then { bp with hitCount := bp.hitCount + 1 } :: bps
    else bp :: incrementHit loc bps

/-- `event.why?.type === 'breakpoint' && event.why.actors &&
(event.why.actors.length > 0)`. -/
def whyIsBreakpointWithActors : Option ThreadPausedReason → Bool
  | some w => w.type == "breakpoint" && (match w.actors with
      | some as => !as.isEmpty
      | none => false)
  | none => false

/-- The hit-count gate of the paused handler (lines guarded by
`breakpointInfo?.hitLimit`): returns the updated breakpoint list and whether
the stop is suppressed (`hitCount < hitLimit` after the increment). -/
def hitCountGate (sa : SourceAdapterModel) (why : Option ThreadPausedReason)
    (loc : PausedLocation) (bps : List BreakpointInfo) :
    List BreakpointInfo × Bool :=
  if whyIsBreakpointWithActors why && jsTruthyStr sa.path then
    match bps.find? (bpMatches loc) with
    | some bp =>
      if jsTruthyNat bp.hitLimit then
        (incrementHit loc bps, decide (bp.hitCount + 1 < bp.hitLimit.getD 0))
      else (bps, false)
    | none => (bps, false)
  else (bps, false)

/-- Outcome of the paused handler: either the thread is resumed (the stop is
suppressed, no stopped event), or a stopped event is sent with the given
`why`. -/
inductive PauseAction where
  | resume
  | stop (why : Option ThreadPausedReason)
deriving DecidableEq, Repr

/-- The debugger-eval exception gate and the fall-through to
`sendStoppedEvent`. `frames` is the list of source actor names of the fetched
stack, innermost first (`frames[frames.length - 1]` is the deepest frame);
`lookup` is `sources.getAdapterForActor`, `none` meaning the lookup threw
(the `catch` only logs). -/
def exceptionGate (lookup : String → Option SourceAdapterModel)
    (why : Option ThreadPausedReason) (frames : List String)
    (bps : List BreakpointInfo) : List BreakpointInfo × PauseAction :=
  if (match why with | some w => w.type == "exception" | none => false) then
    match frames.getLast? with
    | some frameSourceActor =>
      match lookup frameSourceActor with
      | some sa =>
        if sa.introductionType == some "debugger eval" then (bps, .resume)
        else (bps, .stop why)
      | none => (bps, .stop why)
    | none => (bps, .stop why)
  else (bps, .stop why)

/-- The `paused` branch of the `onThreadState` handler installed by
`attachThread`: blackbox gate, hit-count gate, debugger-eval exception gate,
then the stopped event. A failing `getAdapterForActor` (modelled by `lookup`
returning `none`) is caught and only logged, skipping the first two gates. -/
def onThreadStatePaused (lookup : String → Option SourceAdapterModel)
    (why : Option ThreadPausedReason) (loc : PausedLocation)
    (bps : List BreakpointInfo) (frames : List String) :
    List BreakpointInfo × PauseAction :=
  match lookup loc.actor with
  | some sa =>
    if sa.isBlackBoxed then (bps, .resume)
    else
      let r := hitCountGate sa why loc bps
      if r.2 then (r.1, .resume)
      else exceptionGate lookup why frames r.1
  | none => exceptionGate lookup why frames bps

/-- The body of the DAP stopped event built by `sendStoppedEvent`. -/
structure StoppedEventBody where
  reason : String
  threadId : Nat
  allThreadsStopped : Bool
  text : Option String
deriving DecidableEq, Repr

/-- JS truthiness of the `reason.exception` value (the empty string is
falsy, grip objects are truthy). -/
def jsTruthyException : ExceptionValue → Bool
  | .str s => s != ""
  | .grip _ _ _ => true

/-- `FirefoxDebugSession.sendStoppedEvent`. -/
def sendStoppedEvent (threadId : Nat) (reason : Option ThreadPausedReason) :
    StoppedEventBody :=
  let pauseType := match reason with | some r => r.type | none => "interrupt"
  let base : StoppedEventBody := ⟨pauseType, threadId, false, none⟩
  match reason with
  | some r =>
    match r.exception with
    | some ex =>
      if jsTruthyException ex then
        match ex with
        | .str s => { base with text := some s }
        | .grip ty cls preview =>
          if ty == "object" then
            match preview with
            | some p =>
              if p.kind == "Error" then
                { base with text := some (cls ++ ": " ++ p.message) }
              else { base with text := some cls }
            | none => { base with text := some cls }
          else base
      else base
    | none => base
  | none => base

/-- C2: for every thread-state `paused` event whose pausing frame's source
adapter is blackboxed, the thread is resumed and no stopped DAP event is
emitted for that pause. -/
theorem blackboxed_pause_is_resumed
    (lookup : String → Option SourceAdapterModel)
    (why : Option ThreadPausedReason) (loc : PausedLocation)
    (bps : List BreakpointInfo) (frames : List String)
    (sa : SourceAdapterModel)
    (hlk : lookup loc.actor = some sa) (hbb : sa.isBlackBoxed = true) :
    onThreadStatePaused lookup why loc bps frames = (bps, .resume) := by
  unfold onThreadStatePaused
  rw [hlk]
  simp [hbb]

theorem blackboxed_pause_is_resumed_witness :
    onThreadStatePaused (fun _ => some ⟨true, some "/a.js", none⟩)
      (some ⟨"breakpoint", some ["b1"], none⟩) ⟨"s1", 3, some 0⟩ [] []
      = ([], .resume) :=
  blackboxed_pause_is_resumed (fun _ => some ⟨true, some "/a.js", none⟩)
    (some ⟨"breakpoint", some ["b1"], none⟩) ⟨"s1", 3, some 0⟩ [] []
    ⟨true, some "/a.js", none⟩ rfl rfl

/-- C4: for every pause whose reason type is `exception`, if the deepest
frame of the fetched stack has a source whose introduction type is
"debugger eval", the thread is resumed and no stopped event is emitted. -/
theorem debuggerEval_exception_is_resumed
    (lookup : String → Option SourceAdapterModel)
    (w : ThreadPausedReason) (loc : PausedLocation)
    (bps : List BreakpointInfo) (frames : List String)
    (fa : String) (sa : SourceAdapterModel)
    (ht : w.type = "exception")
    (hl : frames.getLast? = some fa) (hs : lookup fa = some sa)
    (hi : sa.introductionType = some "debugger eval") :
    (onThreadStatePaused lookup (some w) loc bps frames).2 = .resume := by
  have hgate : ∀ bs, exceptionGate lookup (some w) frames bs = (bs, .resume) := by
    intro bs
    unfold exceptionGate
    rw [hl]
    simp only [ht]
    rw [hs]
    simp [hi]
  have hbp : whyIsBreakpointWithActors (some w) = false := by
    simp [whyIsBreakpointWithActors, ht]
  unfold onThreadStatePaused
  match hcase : lookup loc.actor with
  | none => rw [hgate]
  | some sa0 =>
    by_cases hbb : sa0.isBlackBoxed
    · simp [hbb]
    · simp only [hbb, Bool.false_eq_true, if_false]
      have hhc : hitCountGate sa0 (some w) loc bps = (bps, false) := by
        unfold hitCountGate
        simp [hbp]
      rw [hhc]
      simp [hgate]

theorem debuggerEval_exception_is_resumed_witness :
    (onThreadStatePaused
      (fun a => if a = "evalSrc" then some ⟨false, none, some "debugger eval"⟩
                else some ⟨false, some "/a.js", none⟩)
      (some ⟨"exception", none, some (.str "boom")⟩)
      ⟨"s1", 3, some 0⟩ [] ["s1", "evalSrc"]).2 = .resume :=
  debuggerEval_exception_is_resumed
    (fun a => if a = "evalSrc" then some ⟨false, none, some "debugger eval"⟩
              else some ⟨false, some "/a.js", none⟩)
    ⟨"exception", none, some (.str "boom")⟩ ⟨"s1", 3, some 0⟩ [] ["s1", "evalSrc"]
    "evalSrc" ⟨false, none, some "debugger eval"⟩ rfl rfl (by simp) rfl

/-- C1: on the k-th pause (1 ≤ k ≤ N) at the actual location of a realized
breakpoint with `hitLimit = N`, with `why.type = 'breakpoint'` and a
non-empty `why.actors`, in a non-blackboxed source with a path, the manager
increments `hitCount` from k−1 to k; for k < N the thread is resumed and the
stop suppressed, and for k = N the pause is surfaced as a stopped event. -/
theorem hitCount_breakpoint_gate
    (lookup : String → Option SourceAdapterModel) (sa : SourceAdapterModel)
    (p : String) (loc : PausedLocation) (frames : List String)
    (actors : List String) (ex : Option ExceptionValue) (limit k : Nat)
    (hlk : lookup loc.actor = some sa) (hbb : sa.isBlackBoxed = false)
    (hp : sa.path = some p) (hpne : p ≠ "") (has : actors ≠ [])
    (hk1 : 1 ≤ k) (hkl : k ≤ limit) :
    onThreadStatePaused lookup (some ⟨"breakpoint", some actors, ex⟩) loc
        [⟨some ⟨loc.line, loc.column⟩, some limit, k - 1⟩] frames
      = ([⟨some ⟨loc.line, loc.column⟩, some limit, k⟩],
         if k < limit then PauseAction.resume
         else .stop (some ⟨"breakpoint", some actors, ex⟩)) := by
  have hlim0 : limit ≠ 0 := by omega
  have hmatch : bpMatches loc ⟨some ⟨loc.line, loc.column⟩, some limit, k - 1⟩ = true := by
    simp [bpMatches]
  have hwhy : whyIsBreakpointWithActors (some ⟨"breakpoint", some actors, ex⟩) = true := by
    simp [whyIsBreakpointWithActors, List.isEmpty_iff, has]
  have hhc : hitCountGate sa (some ⟨"breakpoint", some actors, ex⟩) loc
      [⟨some ⟨loc.line, loc.column⟩, some limit, k - 1⟩]
      = ([⟨some ⟨loc.line, loc.column⟩, some limit, k⟩], decide (k < limit)) := by
    unfold hitCountGate
    rw [hwhy]
    have hts : jsTruthyStr sa.path = true := by simp [jsTruthyStr, hp, hpne]
    rw [hts]
    simp only [Bool.and_self, if_true, List.find?, hmatch]
    have htn : jsTruthyNat (BreakpointInfo.hitLimit ⟨some ⟨loc.line, loc.column⟩, some limit, k - 1⟩) = true := by
      simp [jsTruthyNat, hlim0]
    rw [htn]
    simp only [if_true, incrementHit, hmatch, if_true]
    have : k - 1 + 1 = k := by omega
    rw [this]
    rfl
  unfold onThreadStatePaused
  rw [hlk]
  simp only [hbb, Bool.false_eq_true, if_false, hhc]
  by_cases hk : k < limit
  · simp [hk]
  · have hd : decide (k < limit) = false := by simpa using hk
    simp only [hd, Bool.false_eq_true, if_false, if_neg hk]
    rfl

theorem hitCount_breakpoint_gate_witness :
    onThreadStatePaused (fun _ => some ⟨false, some "/s.js", none⟩)
        (some ⟨"breakpoint", some ["bpActor1"], none⟩) ⟨"src1", 5, some 2⟩
        [⟨some ⟨5, some 2⟩, some 3, 1⟩] []
      = ([⟨some ⟨5, some 2⟩, some 3, 2⟩], PauseAction.resume) := by
  have h := hitCount_breakpoint_gate (fun _ => some ⟨false, some "/s.js", none⟩)
    ⟨false, some "/s.js", none⟩ "/s.js" ⟨"src1", 5, some 2⟩ [] ["bpActor1"] none 3 2
    rfl rfl rfl (by decide) (by decide) (by decide) (by decide)
  simpa using h

/-- C5 counterexample: `sendStoppedEvent` uses the engine reason string
verbatim (`let pauseType = reason ? reason.type : 'interrupt'`), so a pause
with `why.type = 'debuggerStatement'` produces the DAP reason
`"debuggerStatement"`, not `"debugger statement"` as the claim states. -/
theorem sendStoppedEvent_debuggerStatement_verbatim :
    (sendStoppedEvent 1 (some ⟨"debuggerStatement", none, none⟩)).reason
        = "debuggerStatement"
    ∧ (sendStoppedEvent 1 (some ⟨"debuggerStatement", none, none⟩)).reason
        ≠ "debugger statement" := by
  constructor
  · rfl
  · decide

/-- C5 (amended): every surfaced stopped event has
`allThreadsStopped = false` and carries the given thread id; its reason is
the engine reason string verbatim (`exception → "exception"`,
`breakpoint → "breakpoint"`, `debuggerStatement → "debuggerStatement"`) and
`"interrupt"` when no reason is given; the event text is the exception
string when it is a non-empty string, and is derived from the grip class and
preview when the exception is object-typed. -/
theorem sendStoppedEvent_spec (tid : Nat) (reason : Option ThreadPausedReason) :
    (sendStoppedEvent tid reason).allThreadsStopped = false
    ∧ (sendStoppedEvent tid reason).threadId = tid
    ∧ (sendStoppedEvent tid reason).reason
        = (match reason with | some r => r.type | none => "interrupt")
    ∧ (∀ r s, reason = some r → r.exception = some (.str s) → s ≠ "" →
        (sendStoppedEvent tid reason).text = some s)
    ∧ (∀ r cls p, reason = some r →
        r.exception = some (.grip "object" cls (some p)) →
        (sendStoppedEvent tid reason).text
          = some (if p.kind == "Error" then cls ++ ": " ++ p.message else cls))
    ∧ (∀ r cls, reason = some r → r.exception = some (.grip "object" cls none) →
        (sendStoppedEvent tid reason).text = some cls) := by
  refine ⟨?_, ?_, ?_, ?_, ?_, ?_⟩
  · unfold sendStoppedEvent
    rcases reason with _ | r
    · rfl
    · rcases hex : r.exception with _ | ex
      · simp [hex]
      · rcases ex with s | ⟨ty, cls, preview⟩
        · by_cases hs : s = "" <;> simp [hex, jsTruthyException, hs]
        · by_cases hty : ty = "object"
          · rcases preview with _ | p
            · simp [hex, jsTruthyException, hty]
            · by_cases hk : p.kind = "Error" <;>
                simp [hex, jsTruthyException, hty, hk]
          · simp [hex, jsTruthyException, hty]
  · unfold sendStoppedEvent
    rcases reason with _ | r
    · rfl
    · rcases hex : r.exception with _ | ex
      · simp [hex]
      · rcases ex with s | ⟨ty, cls, preview⟩
        · by_cases hs : s = "" <;> simp [hex, jsTruthyException, hs]
        · by_cases hty : ty = "object"
          · rcases preview with _ | p
            · simp [hex, jsTruthyException, hty]
            · by_cases hk : p.kind = "Error" <;>
                simp [hex, jsTruthyException, hty, hk]
          · simp [hex, jsTruthyException, hty]
  · unfold sendStoppedEvent
    rcases reason with _ | r
    · rfl
    · rcases hex : r.exception with _ | ex
      · simp [hex]
      · rcases ex with s | ⟨ty, cls, preview⟩
        · by_cases hs : s = "" <;> simp [hex, jsTruthyException, hs]
        · by_cases hty : ty = "object"
          · rcases preview with _ | p
            · simp [hex, jsTruthyException, hty]
            · by_cases hk : p.kind = "Error" <;>
                simp [hex, jsTruthyException, hty, hk]
          · simp [hex, jsTruthyException, hty]
  · rintro r s rfl hex hs
    unfold sendStoppedEvent
    simp [hex, jsTruthyException, hs]
  · rintro r cls p rfl hex
    unfold sendStoppedEvent
    by_cases hk : p.kind = "Error" <;> simp [hex, jsTruthyException, hk]
  · rintro r cls rfl hex
    unfold sendStoppedEvent
    simp [hex, jsTruthyException]

theorem sendStoppedEvent_spec_witness :
    (sendStoppedEvent 2 (some ⟨"exception", none,
        some (.grip "object" "TypeError" (some ⟨"Error", "x is not a function"⟩))⟩)).allThreadsStopped = false
    ∧ (sendStoppedEvent 2 (some ⟨"exception", none,
        some (.grip "object" "TypeError" (some ⟨"Error", "x is not a function"⟩))⟩)).reason = "exception"
    ∧ (sendStoppedEvent 2 (some ⟨"exception", none,
        some (.grip "object" "TypeError" (some ⟨"Error", "x is not a function"⟩))⟩)).text
        = some "TypeError: x is not a function" := by
  have h := sendStoppedEvent_spec 2 (some ⟨"exception", none,
      some (.grip "object" "TypeError" (some ⟨"Error", "x is not a function"⟩))⟩)
  refine ⟨h.1, ?_, ?_⟩
  · rw [h.2.2.1]
  · have ht := h.2.2.2.2.1 ⟨"exception", none,
      some (.grip "object" "TypeError" (some ⟨"Error", "x is not a function"⟩))⟩
      "TypeError" ⟨"Error", "x is not a function"⟩ rfl rfl
    simpa using ht

/-- One step of the `resumed` branch of the `onThreadState` handler: the
await of `disposePauseLifetimeAdapters` (which, per the spec invariant on
thread adapters, disposes all pause-lifetime proxies and so invalidates the
variable references issued under the pause; the `ThreadAdapter` class itself
is external to this embedding) and the emission of the DAP
`continued(threadId)` event. Each emission records the pause-lifetime
references still queryable at the moment it is sent. -/
inductive ResumedStep where
  | disposePauseLifetimeAdapters
  | emitContinued (threadId : Nat) (queryableRefs : List Nat)
deriving DecidableEq, Repr

/-- The `resumed` branch of the `onThreadState` handler installed by
`attachThread`: it awaits `disposePauseLifetimeAdapters()` and only then
sends the `ContinuedEvent`. -/
def onThreadStateResumed (_pauseLifetimeRefs : List Nat) (threadId : Nat) :
    List ResumedStep :=
  let refsAfterDispose : List Nat := []
  [.disposePauseLifetimeAdapters, .emitContinued threadId refsAfterDispose]

/-- C3: in the trace of the `resumed` handler, every emission of the DAP
`continued(threadId)` event happens strictly after the disposal of the
pause-lifetime proxies has completed, and at the moment of emission no
pause-lifetime variable reference is queryable. -/
theorem continued_after_pauseLifetime_disposal
    (refs : List Nat) (tid : Nat) (i tid' : Nat) (q : List Nat)
    (h : (onThreadStateResumed refs tid)[i]? = some (.emitContinued tid' q)) :
    q = [] ∧ tid' = tid ∧ ∃ j, j < i ∧
      (onThreadStateResumed refs tid)[j]? = some .disposePauseLifetimeAdapters := by
  match i with
  | 0 => simp [onThreadStateResumed] at h
  | 1 =>
    simp only [onThreadStateResumed, List.getElem?_cons_succ, List.getElem?_cons_zero,
      Option.some.injEq, ResumedStep.emitContinued.injEq] at h
    exact ⟨h.2.symm, h.1.symm, 0, by omega, rfl⟩
  | n + 2 => simp [onThreadStateResumed] at h

theorem continued_after_pauseLifetime_disposal_witness :
    ([] : List Nat) = [] ∧ (3 : Nat) = 3 ∧ ∃ j, j < 1 ∧
      (onThreadStateResumed [7, 8] 3)[j]? = some ResumedStep.disposePauseLifetimeAdapters :=
  continued_after_pauseLifetime_disposal [7, 8] 3 1 3 [] rfl

/-- The data of a `ThreadAdapter` used by the descriptor handlers: the name
of its target actor, its registry id (`Registry` ids are unique for the
session and never reused, so a thread adapter is identified by its id), and
its target type. -/
structure ThreadModel where
  targetActorName : String
  id : Nat
  type : String
deriving DecidableEq, Repr

/-- The session state mutated by the handlers installed in
`attachDescriptor`: the `threadsByTargetActorName` map and the descriptor
adapter's `threads` collection (one descriptor). -/
structure SessState where
  threadsByTargetActorName : List (String × ThreadModel)
  adapterThreads : List ThreadModel
deriving DecidableEq, Repr

/-- `Map.set`: replaces any previous binding of the key. -/
def mapSet (m : List (String × ThreadModel)) (k : String) (v : ThreadModel) :
    List (String × ThreadModel) :=
  (k, v) :: m.filter (fun p => p.1 != k)

/-- `Map.delete`. -/
def mapDelete (m : List (String × ThreadModel)) (k : String) :
    List (String × ThreadModel) :=
  m.filter (fun p => p.1 != k)

/-- `Map.get`. -/
def mapGet (m : List (String × ThreadModel)) (k : String) : Option ThreadModel :=
  (m.find? (fun p => p.1 == k)).map (fun p => p.2)

/-- Events driving the descriptor's thread bookkeeping: a target became
available and was attached (`onTargetAvailable` ending in `attachThread` and
`adapter.threads.add`), `onTargetDestroyed`, and the descriptor's own
`onDestroyed`. -/
inductive SessEvent where
  | targetAvailable (tm : ThreadModel)
  | targetDestroyed (targetActorName : String)
  | descriptorDestroyed
deriving DecidableEq, Repr

/-- The DAP-visible notifications sent by these handlers.
`threadExitedPair t` stands for the pair sent by `sendThreadExitedEvent`:
the `ThreadEvent('exited', t)` followed by the custom `threadExited` event
with body `{id: t}`. -/
inductive SessDapEvent where
  | threadStarted (t : Nat)
  | threadExitedPair (t : Nat)
  | outputClearConsole
deriving DecidableEq, Repr

/-- One step of the session's thread bookkeeping.

* `targetAvailable tm`: `attachThread` puts the adapter into
  `threadsByTargetActorName` under its target actor name and sends the
  thread-started events; the caller adds it to `adapter.threads`.
* `targetDestroyed n`: if the name is unknown the handler only logs
  (`Unknown target actor ... (already destroyed?)`) and returns; otherwise
  it may clear the console (tab threads with `clearConsoleOnReload`), sends
  the thread-exited events, deletes the map entry and removes the adapter
  from `adapter.threads`.
* `descriptorDestroyed`: for every thread of the descriptor adapter, sends
  the thread-exited events and deletes its map entry; `adapter.dispose()`
  does not touch the map. -/
def sessStep (clearConsoleOnReload : Bool) (s : SessState) (e : SessEvent) :
    SessState × List SessDapEvent :=
  match e with
  | .targetAvailable tm =>
    (⟨mapSet s.threadsByTargetActorName tm.targetActorName tm,
      s.adapterThreads ++ [tm]⟩,
     [.threadStarted tm.id])
  | .targetDestroyed n =>
    match mapGet s.threadsByTargetActorName n with
    | none => (s, [])
    | some tm =>
      (⟨mapDelete s.threadsByTargetActorName n,
        s.adapterThreads.filter (fun t => t.id != tm.id)⟩,
       (if tm.type == "tab" && clearConsoleOnReload
        then [SessDapEvent.outputClearConsole] else [])
         ++ [.threadExitedPair tm.id])
  | .descriptorDestroyed =>
    (⟨s.adapterThreads.foldl (fun m t => mapDelete m t.targetActorName)
        s.threadsByTargetActorName,
      s.adapterThreads⟩,
     s.adapterThreads.map (fun t => .threadExitedPair t.id))

/-- Run a sequence of events, concatenating the emitted DAP events. -/
def sessRun (clearConsoleOnReload : Bool) (s : SessState) :
    List SessEvent → List SessDapEvent
  | [] => []
  | e :: evs =>
    (sessStep clearConsoleOnReload s e).2
      ++ sessRun clearConsoleOnReload (sessStep clearConsoleOnReload s e).1 evs

/-- Number of thread-exited notifications for thread id `t` in a DAP trace. -/
def countExited (t : Nat) (out : List SessDapEvent) : Nat :=
  out.countP (fun e => e == SessDapEvent.threadExitedPair t)

/-- The ids of the threads attached over an event sequence. -/
def attachedIds (evs : List SessEvent) : List Nat :=
  evs.filterMap (fun e => match e with
    | .targetAvailable tm => some tm.id
    | _ => none)

/-- The number of `descriptorDestroyed` events in a sequence. -/
def descDestroyedCount (evs : List SessEvent) : Nat :=
  evs.countP (fun e => e == SessEvent.descriptorDestroyed)

/-- The empty session state. -/
def initialSessState : SessState := ⟨[], []⟩

/-- There is a binding whose thread has id `t`. -/
def bindHas (s : SessState) (t : Nat) : Bool :=
  s.threadsByTargetActorName.any (fun p => p.2.id == t)

/-- The descriptor adapter holds a thread with id `t`. -/
def descHas (s : SessState) (t : Nat) : Bool :=
  s.adapterThreads.any (fun tm => tm.id == t)

/-- Well-formedness tying the map to the descriptor's thread collection:
every binding points at a thread of the descriptor, is keyed by that
thread's target actor name, and thread ids are unique (`Registry` ids). -/
def SessWF (s : SessState) : Prop :=
  (∀ p ∈ s.threadsByTargetActorName,
      p.2 ∈ s.adapterThreads ∧ p.1 = p.2.targetActorName)
  ∧ (s.adapterThreads.map (fun tm => tm.id)).Nodup

/-- Upper bound on future thread-exited emissions for id `t`: one per
attach of `t` in the remaining events, plus at most one for a presence of
`t` in the current state (witnessed by a map binding while a
`descriptorDestroyed` may still arrive, by membership in the descriptor's
collection afterwards). -/
def exitBudget (s : SessState) (evs : List SessEvent) (t : Nat) : Nat :=
  (attachedIds evs).count t +
    (if descDestroyedCount evs = 0 then (if bindHas s t then 1 else 0)
     else (if descHas s t then 1 else 0))

theorem mapGet_eq_some (m : List (String × ThreadModel)) (n : String)
    (tm : ThreadModel) (h : mapGet m n = some tm) :
    (n, tm) ∈ m := by
  unfold mapGet at h
  rcases hf : m.find? (fun p => p.1 == n) with _ | p
  · rw [hf] at h; simp at h
  · rw [hf] at h
    have h2 : p.2 = tm := by simpa using h
    have hm := List.mem_of_find?_eq_some hf
    have hp := List.find?_some hf
    simp only [beq_iff_eq] at hp
    have heq : (n, tm) = p := by
      rcases p with ⟨p1, p2⟩
      simp only at hp h2
      rw [hp, h2]
    rw [heq]
    exact hm

theorem mem_mapDelete (m : List (String × ThreadModel)) (k : String)
    (p : String × ThreadModel) (h : p ∈ mapDelete m k) :
    p ∈ m ∧ p.1 ≠ k := by
  unfold mapDelete at h
  have := List.of_mem_filter h
  exact ⟨List.mem_of_mem_filter h, by simpa using this⟩

theorem mem_mapSet (m : List (String × ThreadModel)) (k : String)
    (v : ThreadModel) (p : String × ThreadModel) (h : p ∈ mapSet m k v) :
    p = (k, v) ∨ p ∈ m := by
  unfold mapSet at h
  rcases List.mem_cons.mp h with h | h
  · exact Or.inl h
  · exact Or.inr (List.mem_of_mem_filter h)

theorem mem_foldl_mapDelete (L : List ThreadModel) :
    ∀ (m : List (String × ThreadModel)) (p : String × ThreadModel),
      p ∈ L.foldl (fun acc tm => mapDelete acc tm.targetActorName) m →
      p ∈ m ∧ ∀ tm ∈ L, p.1 ≠ tm.targetActorName := by
  induction L with
  | nil =>
    intro m p h
    exact ⟨h, fun tm htm => absurd htm (List.not_mem_nil tm)⟩
  | cons tm L ih =>
    intro m p h
    simp only [List.foldl_cons] at h
    obtain ⟨h1, h2⟩ := ih (mapDelete m tm.targetActorName) p h
    obtain ⟨h3, h4⟩ := mem_mapDelete m tm.targetActorName p h1
    refine ⟨h3, ?_⟩
    intro tm' htm'
    rcases List.mem_cons.mp htm' with rfl | htm'
    · exact h4
    · exact h2 tm' htm'

/-- After `descriptorDestroyed`, every map binding has been deleted: each
binding is keyed by the target actor name of one of the descriptor's
threads, and the handler deletes exactly those keys. -/
theorem foldl_mapDelete_eq_nil (s : SessState) (hwf : SessWF s) :
    s.adapterThreads.foldl (fun acc tm => mapDelete acc tm.targetActorName)
      s.threadsByTargetActorName = [] := by
  rw [List.eq_nil_iff_forall_not_mem]
  intro p hp
  obtain ⟨h1, h2⟩ := mem_foldl_mapDelete s.adapterThreads
    s.threadsByTargetActorName p hp
  obtain ⟨h3, h4⟩ := hwf.1 p h1
  exact h2 p.2 h3 h4

theorem nodupIds_inj (l : List ThreadModel)
    (h : (l.map (fun tm => tm.id)).Nodup) (a b : ThreadModel)
    (ha : a ∈ l) (hb : b ∈ l) (hid : a.id = b.id) : a = b :=
  List.inj_on_of_nodup_map h ha hb hid

theorem countP_id_le_one (l : List ThreadModel)
    (h : (l.map (fun tm => tm.id)).Nodup) (t : Nat) :
    l.countP (fun tm => tm.id == t) ≤ 1 := by
  induction l with
  | nil => simp
  | cons a l ih =>
    simp only [List.map_cons, List.nodup_cons] at h
    rw [List.countP_cons]
    by_cases hat : a.id = t
    · have hz : l.countP (fun tm => tm.id == t) = 0 := by
        rw [List.countP_eq_zero]
        intro b hb
        simp only [beq_iff_eq]
        intro hbt
        exact h.1 (by
          rw [hat, ← hbt]
          exact List.mem_map_of_mem (fun tm => tm.id) hb)
      simp [hat, hz]
    · have hle := ih h.2
      simp only [beq_iff_eq, hat, if_false, decide_eq_true_eq]
      simpa [hat] using hle

theorem countP_id_eq_zero (l : List ThreadModel) (t : Nat)
    (h : l.any (fun tm => tm.id == t) = false) :
    l.countP (fun tm => tm.id == t) = 0 := by
  rw [List.countP_eq_zero]
  intro b hb
  rcases List.any_eq_false.mp h b hb with hfalse
  simp only [hfalse]
  simp

theorem countExited_append (t : Nat) (a b : List SessDapEvent) :
    countExited t (a ++ b) = countExited t a + countExited t b := by
  simp [countExited, List.countP_append]

theorem countExited_map_exited (t : Nat) (l : List ThreadModel) :
    countExited t (l.map (fun tm => SessDapEvent.threadExitedPair tm.id))
      = l.countP (fun tm => tm.id == t) := by
  simp only [countExited, List.countP_map]
  apply List.countP_congr
  intro tm _
  simp [Function.comp]

theorem anyMono {α : Type} (p : α → Bool) {l m : List α}
    (hsub : ∀ x ∈ l, x ∈ m) (h : l.any p = true) : m.any p = true := by
  rw [List.any_eq_true] at h ⊢
  obtain ⟨x, hx, hpx⟩ := h
  exact ⟨x, hsub x hx, hpx⟩

theorem descDestroyedCount_cons_targetAvailable (tm : ThreadModel)
    (evs : List SessEvent) :
    descDestroyedCount (SessEvent.targetAvailable tm :: evs)
      = descDestroyedCount evs := by
  simp [descDestroyedCount, List.countP_cons]

theorem descDestroyedCount_cons_targetDestroyed (n : String)
    (evs : List SessEvent) :
    descDestroyedCount (SessEvent.targetDestroyed n :: evs)
      = descDestroyedCount evs := by
  simp [descDestroyedCount, List.countP_cons]

theorem descDestroyedCount_cons_descriptorDestroyed (evs : List SessEvent) :
    descDestroyedCount (SessEvent.descriptorDestroyed :: evs)
      = descDestroyedCount evs + 1 := by
  simp [descDestroyedCount, List.countP_cons]

/-- C6 main bound: running any event sequence from a well-formed state in
which thread ids are fresh and pairwise distinct, with at most one
`descriptorDestroyed` event, emits the thread-exited notification for a
given thread id at most `exitBudget` many times. -/
theorem sessRun_exited_le (cfg : Bool) (t : Nat) :
    ∀ (evs : List SessEvent) (s : SessState), SessWF s →
      descDestroyedCount evs ≤ 1 →
      ((s.adapterThreads.map (fun tm => tm.id)) ++ attachedIds evs).Nodup →
      countExited t (sessRun cfg s evs) ≤ exitBudget s evs t := by
  intro evs
  induction evs with
  | nil =>
    intro s _ _ _
    simp [sessRun, countExited, exitBudget]
  | cons e evs ih =>
    intro s hwf hdd hnd
    cases e with
    | targetAvailable tm =>
      have hstep : sessStep cfg s (SessEvent.targetAvailable tm)
          = (⟨mapSet s.threadsByTargetActorName tm.targetActorName tm,
              s.adapterThreads ++ [tm]⟩,
             [SessDapEvent.threadStarted tm.id]) := rfl
      have hnd1 : (s.adapterThreads.map (fun tm => tm.id)
          ++ (tm.id :: attachedIds evs)).Nodup := by
        simpa [attachedIds] using hnd
      have hnd2 : ((s.adapterThreads.map (fun tm => tm.id) ++ [tm.id])
          ++ attachedIds evs).Nodup := by
        rw [List.append_assoc, List.singleton_append]
        exact hnd1
      have hwf' : SessWF ⟨mapSet s.threadsByTargetActorName tm.targetActorName tm,
          s.adapterThreads ++ [tm]⟩ := by
        constructor
        · intro p hp
          rcases mem_mapSet _ _ _ p hp with rfl | hp2
          · exact ⟨by simp, rfl⟩
          · obtain ⟨h3, h4⟩ := hwf.1 p hp2
            exact ⟨by simp [h3], h4⟩
        · simpa using hnd2.of_append_left
      have hdd' : descDestroyedCount evs ≤ 1 := by
        rw [← descDestroyedCount_cons_targetAvailable tm evs]
        exact hdd
      have ihr := ih ⟨mapSet s.threadsByTargetActorName tm.targetActorName tm,
          s.adapterThreads ++ [tm]⟩ hwf' hdd' (by simpa using hnd2)
      rw [sessRun, hstep]
      rw [countExited_append]
      have hc0 : countExited t [SessDapEvent.threadStarted tm.id] = 0 := by
        simp [countExited]
      rw [hc0]
      simp only [exitBudget] at ihr ⊢
      rw [descDestroyedCount_cons_targetAvailable tm evs]
      have hattach : attachedIds (SessEvent.targetAvailable tm :: evs)
          = tm.id :: attachedIds evs := by simp [attachedIds]
      rw [hattach]
      by_cases hteq : tm.id = t
      · have hcnt : (tm.id :: attachedIds evs).count t
            = (attachedIds evs).count t + 1 := by
          simp [List.count_cons, hteq]
        rw [hcnt]
        have hb1 : (if descDestroyedCount evs = 0 then
            (if bindHas ⟨mapSet s.threadsByTargetActorName tm.targetActorName tm,
                s.adapterThreads ++ [tm]⟩ t then 1 else 0)
            else (if descHas ⟨mapSet s.threadsByTargetActorName tm.targetActorName tm,
                s.adapterThreads ++ [tm]⟩ t then 1 else 0)) ≤ 1 := by
          split <;> split <;> omega
        omega
      · have hcnt : (tm.id :: attachedIds evs).count t
            = (attachedIds evs).count t := by
          simp [List.count_cons, hteq]
        rw [hcnt]
        have hbmono : bindHas ⟨mapSet s.threadsByTargetActorName tm.targetActorName tm,
            s.adapterThreads ++ [tm]⟩ t = true → bindHas s t = true := by
          intro hb
          simp only [bindHas] at hb
          rw [List.any_eq_true] at hb
          obtain ⟨p, hp, hpt⟩ := hb
          rcases mem_mapSet _ _ _ p hp with rfl | hp2
          · simp only [beq_iff_eq] at hpt
            exact absurd hpt hteq
          · exact anyMono _ (fun x hx => hx) (List.any_eq_true.mpr ⟨p, hp2, hpt⟩)
        have hdmono : descHas ⟨mapSet s.threadsByTargetActorName tm.targetActorName tm,
            s.adapterThreads ++ [tm]⟩ t = true → descHas s t = true := by
          intro hb
          simp only [descHas] at hb ⊢
          rw [List.any_eq_true] at hb ⊢
          obtain ⟨x, hx, hxt⟩ := hb
          rcases List.mem_append.mp hx with hx2 | hx2
          · exact ⟨x, hx2, hxt⟩
          · rw [List.mem_singleton] at hx2
            subst hx2
            simp only [beq_iff_eq] at hxt
            exact absurd hxt hteq
        have hmle : (if descDestroyedCount evs = 0 then
            (if bindHas ⟨mapSet s.threadsByTargetActorName tm.targetActorName tm,
                s.adapterThreads ++ [tm]⟩ t then 1 else 0)
            else (if descHas ⟨mapSet s.threadsByTargetActorName tm.targetActorName tm,
                s.adapterThreads ++ [tm]⟩ t then 1 else 0))
            ≤ (if descDestroyedCount evs = 0 then (if bindHas s t then 1 else 0)
               else (if descHas s t then 1 else 0)) := by
          by_cases hd : descDestroyedCount evs = 0
          · simp only [hd, if_true]
            by_cases hb : bindHas ⟨mapSet s.threadsByTargetActorName tm.targetActorName tm,
                s.adapterThreads ++ [tm]⟩ t
            · rw [hbmono hb]
              simp [hb]
            · simp only [hb, Bool.false_eq_true, if_false]
              omega
          · simp only [hd, if_false]
            by_cases hb : descHas ⟨mapSet s.threadsByTargetActorName tm.targetActorName tm,
                s.adapterThreads ++ [tm]⟩ t
            · rw [hdmono hb]
              simp [hb]
            · simp only [hb, Bool.false_eq_true, if_false]
              omega
        omega
    | targetDestroyed n =>
      have hattach : attachedIds (SessEvent.targetDestroyed n :: evs)
          = attachedIds evs := by simp [attachedIds]
      have hdd' : descDestroyedCount evs ≤ 1 := by
        rw [← descDestroyedCount_cons_targetDestroyed n evs]
        exact hdd
      have hnd' : (s.adapterThreads.map (fun tm => tm.id)
          ++ attachedIds evs).Nodup := by
        simpa [attachedIds] using hnd
      rcases hget : mapGet s.threadsByTargetActorName n with _ | tm
      · have hstep : sessStep cfg s (SessEvent.targetDestroyed n) = (s, []) := by
          simp [sessStep, hget]
        have ihr := ih s hwf hdd' hnd'
        rw [sessRun, hstep]
        simp only [List.nil_append]
        simp only [exitBudget] at ihr ⊢
        rw [descDestroyedCount_cons_targetDestroyed n evs, hattach]
        exact ihr
      · have hstep : sessStep cfg s (SessEvent.targetDestroyed n)
            = (⟨mapDelete s.threadsByTargetActorName n,
                s.adapterThreads.filter (fun th => th.id != tm.id)⟩,
               (if tm.type == "tab" && cfg
                then [SessDapEvent.outputClearConsole] else [])
                 ++ [SessDapEvent.threadExitedPair tm.id]) := by
          simp [sessStep, hget]
        have hmem : (n, tm) ∈ s.threadsByTargetActorName :=
          mapGet_eq_some _ _ _ hget
        obtain ⟨hdescMem, hname⟩ := hwf.1 (n, tm) hmem
        simp only at hdescMem hname
        have hwf' : SessWF ⟨mapDelete s.threadsByTargetActorName n,
            s.adapterThreads.filter (fun th => th.id != tm.id)⟩ := by
          constructor
          · intro p hp
            obtain ⟨hp1, hp2⟩ := mem_mapDelete _ _ p hp
            obtain ⟨h3, h4⟩ := hwf.1 p hp1
            refine ⟨?_, h4⟩
            rw [List.mem_filter]
            refine ⟨h3, ?_⟩
            simp only [bne_iff_ne, ne_eq]
            intro hid
            have : p.2 = tm := nodupIds_inj s.adapterThreads hwf.2 p.2 tm h3 hdescMem hid
            apply hp2
            rw [h4, this, ← hname]
          · exact List.Nodup.sublist (List.Sublist.map _ (List.filter_sublist _)) hwf.2
        have hsub : ((s.adapterThreads.filter (fun th => th.id != tm.id)).map
            (fun tm => tm.id) ++ attachedIds evs).Nodup := by
          refine List.Nodup.sublist ?_ hnd'
          exact List.Sublist.append (List.Sublist.map _ (List.filter_sublist _))
            (List.Sublist.refl _)
        have ihr := ih ⟨mapDelete s.threadsByTargetActorName n,
            s.adapterThreads.filter (fun th => th.id != tm.id)⟩ hwf' hdd' hsub
        rw [sessRun, hstep]
        rw [countExited_append, countExited_append]
        have hclr : countExited t (if tm.type == "tab" && cfg
            then [SessDapEvent.outputClearConsole] else []) = 0 := by
          split <;> simp [countExited]
        rw [hclr]
        simp only [exitBudget] at ihr ⊢
        rw [descDestroyedCount_cons_targetDestroyed n evs, hattach]
        by_cases hteq : tm.id = t
        · have hcout : countExited t [SessDapEvent.threadExitedPair tm.id] = 1 := by
            simp [countExited, hteq]
          rw [hcout]
          have hbind : bindHas s t = true := by
            simp only [bindHas]
            rw [List.any_eq_true]
            exact ⟨(n, tm), hmem, by simp [hteq]⟩
          have hdescH : descHas s t = true := by
            simp only [descHas]
            rw [List.any_eq_true]
            exact ⟨tm, hdescMem, by simp [hteq]⟩
          have hbind' : bindHas ⟨mapDelete s.threadsByTargetActorName n,
              s.adapterThreads.filter (fun th => th.id != tm.id)⟩ t = false := by
            simp only [bindHas]
            rw [List.any_eq_false]
            intro p hp
            obtain ⟨hp1, hp2⟩ := mem_mapDelete _ _ p hp
            obtain ⟨h3, h4⟩ := hwf.1 p hp1
            simp only [beq_iff_eq]
            intro hid
            have : p.2 = tm := nodupIds_inj s.adapterThreads hwf.2 p.2 tm h3
              hdescMem (by rw [hid, hteq])
            apply hp2
            rw [h4, this, ← hname]
          have hdesc' : descHas ⟨mapDelete s.threadsByTargetActorName n,
              s.adapterThreads.filter (fun th => th.id != tm.id)⟩ t = false := by
            simp only [descHas]
            rw [List.any_eq_false]
            intro x hx
            rw [List.mem_filter] at hx
            have := hx.2
            simp only [bne_iff_ne, ne_eq] at this
            simp only [beq_iff_eq]
            intro hxt
            exact this (by rw [hxt, hteq])
          rw [hbind, hdescH] at *
          rw [hbind', hdesc'] at ihr
          simp only [if_true, Bool.false_eq_true, if_false] at ihr ⊢
          have hle1 : (if descDestroyedCount evs = 0 then (0 : Nat) else 0) = 0 := by
            split <;> rfl
          rw [hle1] at ihr
          have hge1 : (if descDestroyedCount evs = 0 then (1 : Nat) else 1) = 1 := by
            split <;> rfl
          rw [hge1]
          omega
        · have hcout : countExited t [SessDapEvent.threadExitedPair tm.id] = 0 := by
            simp [countExited, hteq]
          rw [hcout]
          have hbmono : bindHas ⟨mapDelete s.threadsByTargetActorName n,
              s.adapterThreads.filter (fun th => th.id != tm.id)⟩ t = true →
              bindHas s t = true := by
            intro hb
            simp only [bindHas] at hb ⊢
            exact anyMono _ (fun p hp => (mem_mapDelete _ _ p hp).1) hb
          have hdmono : descHas ⟨mapDelete s.threadsByTargetActorName n,
              s.adapterThreads.filter (fun th => th.id != tm.id)⟩ t = true →
              descHas s t = true := by
            intro hb
            simp only [descHas] at hb ⊢
            exact anyMono _ (fun x hx => List.mem_of_mem_filter hx) hb
          have hmle : (if descDestroyedCount evs = 0 then
              (if bindHas ⟨mapDelete s.threadsByTargetActorName n,
                  s.adapterThreads.filter (fun th => th.id != tm.id)⟩ t then 1 else 0)
              else (if descHas ⟨mapDelete s.threadsByTargetActorName n,
                  s.adapterThreads.filter (fun th => th.id != tm.id)⟩ t then 1 else 0))
              ≤ (if descDestroyedCount evs = 0 then (if bindHas s t then 1 else 0)
                 else (if descHas s t then 1 else 0)) := by
            by_cases hd : descDestroyedCount evs = 0
            · simp only [hd, if_true]
              by_cases hb : bindHas ⟨mapDelete s.threadsByTargetActorName n,
                  s.adapterThreads.filter (fun th => th.id != tm.id)⟩ t
              · rw [hbmono hb]
                simp [hb]
              · simp only [hb, Bool.false_eq_true, if_false]
                omega
            · simp only [hd, if_false]
              by_cases hb : descHas ⟨mapDelete s.threadsByTargetActorName n,
                  s.adapterThreads.filter (fun th => th.id != tm.id)⟩ t
              · rw [hdmono hb]
                simp [hb]
              · simp only [hb, Bool.false_eq_true, if_false]
                omega
          omega
    | descriptorDestroyed =>
      have hstep : sessStep cfg s SessEvent.descriptorDestroyed
          = (⟨s.adapterThreads.foldl (fun m tm => mapDelete m tm.targetActorName)
              s.threadsByTargetActorName, s.adapterThreads⟩,
             s.adapterThreads.map (fun tm => SessDapEvent.threadExitedPair tm.id)) := rfl
      have hattach : attachedIds (SessEvent.descriptorDestroyed :: evs)
          = attachedIds evs := by simp [attachedIds]
      have hddc := descDestroyedCount_cons_descriptorDestroyed evs
      have hdd0 : descDestroyedCount evs = 0 := by
        rw [hddc] at hdd
        omega
      have hnil : s.adapterThreads.foldl (fun m tm => mapDelete m tm.targetActorName)
          s.threadsByTargetActorName = [] := foldl_mapDelete_eq_nil s hwf
      have hwf' : SessWF ⟨s.adapterThreads.foldl
          (fun m tm => mapDelete m tm.targetActorName) s.threadsByTargetActorName,
          s.adapterThreads⟩ := by
        constructor
        · intro p hp
          rw [hnil] at hp
          exact absurd hp (List.not_mem_nil p)
        · exact hwf.2
      have hnd2 : (s.adapterThreads.map (fun tm => tm.id)
          ++ attachedIds evs).Nodup := by
        simpa [attachedIds] using hnd
      have ihr := ih ⟨s.adapterThreads.foldl
          (fun m tm => mapDelete m tm.targetActorName) s.threadsByTargetActorName,
          s.adapterThreads⟩ hwf' (by omega) hnd2
      rw [sessRun, hstep]
      rw [countExited_append, countExited_map_exited]
      simp only [exitBudget] at ihr ⊢
      rw [hddc, hattach, hdd0]
      have hbind' : bindHas ⟨s.adapterThreads.foldl
          (fun m tm => mapDelete m tm.targetActorName) s.threadsByTargetActorName,
          s.adapterThreads⟩ t = false := by
        simp only [bindHas]
        rw [hnil]
        rfl
      rw [hdd0, hbind'] at ihr
      simp only [if_true, Bool.false_eq_true, if_false] at ihr
      have hble : s.adapterThreads.countP (fun tm => tm.id == t)
          ≤ (if descHas s t then 1 else 0) := by
        by_cases hdh : descHas s t
        · rw [if_pos hdh]
          exact countP_id_le_one s.adapterThreads hwf.2 t
        · rw [if_neg hdh]
          have : descHas s t = false := by
            rcases hdes : descHas s t
            · rfl
            · exact absurd hdes hdh
          exact Nat.le_of_eq (countP_id_eq_zero s.adapterThreads t this)
      rw [if_neg (by omega : ¬((0 : Nat) + 1 = 0))]
      omega

/-- C6: starting from the empty session, with fresh pairwise-distinct thread
ids and at most one `descriptor-destroyed` notification, the thread-exited
notification (the `ThreadEvent('exited')` plus the custom `threadExited`
event, modelled as `threadExitedPair`) is emitted at most once per thread
id, it is emitted when a registered target is destroyed, and a
`target-destroyed` event whose target actor name has no registered thread
adapter is logged and ignored, producing no DAP event and no state change. -/
theorem threadExited_once_and_unknown_target_ignored :
    (∀ (cfg : Bool) (evs : List SessEvent) (t : Nat),
        (attachedIds evs).Nodup → descDestroyedCount evs ≤ 1 →
        countExited t (sessRun cfg initialSessState evs) ≤ 1)
    ∧ (∀ (cfg : Bool) (s : SessState) (n : String),
        mapGet s.threadsByTargetActorName n = none →
        sessStep cfg s (SessEvent.targetDestroyed n) = (s, []))
    ∧ (∀ (cfg : Bool) (s : SessState) (n : String) (tm : ThreadModel),
        mapGet s.threadsByTargetActorName n = some tm →
        SessDapEvent.threadExitedPair tm.id
          ∈ (sessStep cfg s (SessEvent.targetDestroyed n)).2) := by
  refine ⟨?_, ?_, ?_⟩
  · intro cfg evs t hnodup hdd
    have hwf0 : SessWF initialSessState := by
      constructor
      · intro p hp
        exact absurd hp (List.not_mem_nil p)
      · simp [initialSessState]
    have hb := sessRun_exited_le cfg t evs initialSessState hwf0 hdd
      (by simpa [initialSessState] using hnodup)
    have hbudget : exitBudget initialSessState evs t ≤ 1 := by
      simp only [exitBudget, bindHas, descHas, initialSessState, List.any_nil]
      have hcle := List.nodup_iff_count_le_one.mp hnodup t
      split <;> simp <;> omega
    omega
  · intro cfg s n h
    simp [sessStep, h]
  · intro cfg s n tm h
    simp only [sessStep, h]
    exact List.mem_append_right _ (List.mem_singleton.mpr rfl)

theorem threadExited_once_and_unknown_target_ignored_witness :
    countExited 1 (sessRun false initialSessState
        [SessEvent.targetAvailable ⟨"t1", 1, "tab"⟩,
         SessEvent.targetDestroyed "t1",
         SessEvent.targetDestroyed "t1",
         SessEvent.descriptorDestroyed]) ≤ 1
    ∧ sessStep false initialSessState (SessEvent.targetDestroyed "unknown")
        = (initialSessState, [])
    ∧ SessDapEvent.threadExitedPair 1
        ∈ (sessStep false ⟨[("t1", ⟨"t1", 1, "worker"⟩)], [⟨"t1", 1, "worker"⟩]⟩
            (SessEvent.targetDestroyed "t1")).2 :=
  ⟨threadExited_once_and_unknown_target_ignored.1 false
      [SessEvent.targetAvailable ⟨"t1", 1, "tab"⟩,
       SessEvent.targetDestroyed "t1",
       SessEvent.targetDestroyed "t1",
       SessEvent.descriptorDestroyed] 1 (by decide) (by decide),
   threadExited_once_and_unknown_target_ignored.2.1 false initialSessState
      "unknown" (by decide),
   threadExited_once_and_unknown_target_ignored.2.2 false
      ⟨[("t1", ⟨"t1", 1, "worker"⟩)], [⟨"t1", 1, "worker"⟩]⟩ "t1"
      ⟨"t1", 1, "worker"⟩ (by decide)⟩

/-- Inputs of `disconnectFirefoxAndCleanup`: configuration and runtime state
at the time the session terminates. `socketClosesDuringWait` is the
environment's choice of whether the Firefox process / debug socket closes
within the 1-second `Promise.race` window (`firefoxDebugSocketClosed` is set
by the socket's close handler). -/
structure CleanupState where
  reloadWatcher : Bool
  terminate : Bool
  firefoxProc : Bool
  socketClosedAtStart : Bool
  addonsActor : Bool
  socketClosesDuringWait : Bool
  launchTmpDirs : Option (List String)
deriving DecidableEq, Repr

/-- Observable actions of `disconnectFirefoxAndCleanup`, in program order. -/
inductive CleanupAction where
  | closeReloadWatcher
  | disconnect
  | killFirefoxProcSigterm
  | waitUpTo1s
  | installTerminatorAddon
  | warnCouldNotTerminate
  | delay500ms
  | removeTmpDirs (dirs : List String)
deriving DecidableEq, Repr

/-- `FirefoxDebugSession.disconnectFirefoxAndCleanup` as the ordered trace of
its observable actions. -/
def disconnectFirefoxAndCleanup (st : CleanupState) : List CleanupAction :=
  let w := if st.reloadWatcher then [CleanupAction.closeReloadWatcher] else []
  if !st.terminate then
    w ++ [CleanupAction.disconnect]
  else
    let term :=
      if st.firefoxProc then
        [CleanupAction.killFirefoxProcSigterm, CleanupAction.waitUpTo1s]
      else if !st.socketClosedAtStart && st.addonsActor then
        [CleanupAction.installTerminatorAddon, CleanupAction.waitUpTo1s]
      else []
    let waited := st.firefoxProc || (!st.socketClosedAtStart && st.addonsActor)
    let socketClosed :=
      st.socketClosedAtStart || (waited && st.socketClosesDuringWait)
    if !socketClosed then
      w ++ term ++ [CleanupAction.warnCouldNotTerminate, CleanupAction.disconnect]
    else
      match st.launchTmpDirs with
      | some dirs =>
        if 0 < dirs.length then
          w ++ term ++ [CleanupAction.delay500ms, CleanupAction.removeTmpDirs dirs]
        else w ++ term
      | none => w ++ term

/-- C7 counterexample: with `terminate` configured the claim fails in both
directions. When the launched child is signalled and Firefox closes within
the wait, the function never disconnects the protocol connection (it goes
straight to the temp-dir cleanup); when Firefox does not close within the
wait, it disconnects but never removes the temporary profile directories. -/
theorem disconnectFirefoxAndCleanup_claim_false :
    disconnectFirefoxAndCleanup ⟨false, true, true, false, false, true, some ["/tmp/profile"]⟩
      = [CleanupAction.killFirefoxProcSigterm, CleanupAction.waitUpTo1s,
         CleanupAction.delay500ms, CleanupAction.removeTmpDirs ["/tmp/profile"]]
    ∧ CleanupAction.disconnect
        ∉ disconnectFirefoxAndCleanup ⟨false, true, true, false, false, true, some ["/tmp/profile"]⟩
    ∧ disconnectFirefoxAndCleanup ⟨false, true, true, false, false, false, some ["/tmp/profile"]⟩
      = [CleanupAction.killFirefoxProcSigterm, CleanupAction.waitUpTo1s,
         CleanupAction.warnCouldNotTerminate, CleanupAction.disconnect]
    ∧ CleanupAction.removeTmpDirs ["/tmp/profile"]
        ∉ disconnectFirefoxAndCleanup ⟨false, true, true, false, false, false, some ["/tmp/profile"]⟩ := by
  refine ⟨rfl, ?_, rfl, ?_⟩ <;> decide


theorem cleanup_proc_case (w c0 ad cw : Bool) (tmp : Option (List String)) :
    CleanupAction.killFirefoxProcSigterm
        ∈ disconnectFirefoxAndCleanup ⟨w, true, true, c0, ad, cw, tmp⟩
    ∧ CleanupAction.waitUpTo1s
        ∈ disconnectFirefoxAndCleanup ⟨w, true, true, c0, ad, cw, tmp⟩
    ∧ CleanupAction.installTerminatorAddon
        ∉ disconnectFirefoxAndCleanup ⟨w, true, true, c0, ad, cw, tmp⟩ := by
  cases w <;> cases c0 <;> cases ad <;> cases cw <;>
    rcases tmp with _ | dirs <;>
    (try rcases dirs with _ | ⟨d, ds⟩) <;>
    simp [disconnectFirefoxAndCleanup]

theorem cleanup_install_iff (w c0 ad cw : Bool) (tmp : Option (List String)) :
    CleanupAction.installTerminatorAddon
        ∈ disconnectFirefoxAndCleanup ⟨w, true, false, c0, ad, cw, tmp⟩
      ↔ (c0 = false ∧ ad = true) := by
  cases w <;> cases c0 <;> cases ad <;> cases cw <;>
    rcases tmp with _ | dirs <;>
    (try rcases dirs with _ | ⟨d, ds⟩) <;>
    simp [disconnectFirefoxAndCleanup]

theorem cleanup_disconnect_iff (w proc c0 ad cw : Bool) (tmp : Option (List String)) :
    CleanupAction.disconnect
        ∈ disconnectFirefoxAndCleanup ⟨w, true, proc, c0, ad, cw, tmp⟩
      ↔ (c0 || ((proc || (!c0 && ad)) && cw)) = false := by
  cases w <;> cases proc <;> cases c0 <;> cases ad <;> cases cw <;>
    rcases tmp with _ | dirs <;>
    (try rcases dirs with _ | ⟨d, ds⟩) <;>
    simp [disconnectFirefoxAndCleanup]

theorem cleanup_no_remove_when_open (w proc c0 ad cw : Bool)
    (tmp : Option (List String)) (dirs : List String)
    (hcl : (c0 || ((proc || (!c0 && ad)) && cw)) = false) :
    CleanupAction.removeTmpDirs dirs
      ∉ disconnectFirefoxAndCleanup ⟨w, true, proc, c0, ad, cw, tmp⟩ := by
  cases w <;> cases proc <;> cases c0 <;> cases ad <;> cases cw <;>
    rcases tmp with _ | dirs2 <;>
    (try rcases dirs2 with _ | ⟨d, ds⟩) <;>
    simp_all [disconnectFirefoxAndCleanup]

theorem cleanup_remove_suffix (w proc c0 ad cw : Bool) (dirs : List String)
    (hne : dirs ≠ [])
    (hcl : (c0 || ((proc || (!c0 && ad)) && cw)) = true) :
    ∃ pre, disconnectFirefoxAndCleanup ⟨w, true, proc, c0, ad, cw, some dirs⟩
      = pre ++ [CleanupAction.delay500ms, CleanupAction.removeTmpDirs dirs] := by
  have hlen : 0 < dirs.length := List.length_pos.mpr hne
  refine ⟨(if w then [CleanupAction.closeReloadWatcher] else [])
    ++ (if proc then [CleanupAction.killFirefoxProcSigterm, CleanupAction.waitUpTo1s]
        else if !c0 && ad then
          [CleanupAction.installTerminatorAddon, CleanupAction.waitUpTo1s]
        else []), ?_⟩
  cases w <;> cases proc <;> cases c0 <;> cases ad <;> cases cw <;>
    simp_all [disconnectFirefoxAndCleanup]

/-- C7 (amended): with the terminate option configured, a held child process
is signalled with SIGTERM and awaited (and the terminator addon is not
installed); without a held child the terminator addon is installed exactly
when the socket is still open and an addons actor is available; the protocol
connection is explicitly disconnected exactly when the socket is still open
after the bounded wait, in which case no temporary profile directories are
removed; and when the socket closed and the launch configuration holds a
non-empty list of temporary profile directories, the trace ends with the
500 ms grace delay followed by their removal. -/
theorem disconnectFirefoxAndCleanup_spec (st : CleanupState)
    (hterm : st.terminate = true) :
    (st.firefoxProc = true →
        CleanupAction.killFirefoxProcSigterm ∈ disconnectFirefoxAndCleanup st
        ∧ CleanupAction.waitUpTo1s ∈ disconnectFirefoxAndCleanup st
        ∧ CleanupAction.installTerminatorAddon ∉ disconnectFirefoxAndCleanup st)
    ∧ (st.firefoxProc = false →
        (CleanupAction.installTerminatorAddon ∈ disconnectFirefoxAndCleanup st
          ↔ (st.socketClosedAtStart = false ∧ st.addonsActor = true)))
    ∧ (CleanupAction.disconnect ∈ disconnectFirefoxAndCleanup st
        ↔ (st.socketClosedAtStart
            || ((st.firefoxProc || (!st.socketClosedAtStart && st.addonsActor))
                && st.socketClosesDuringWait)) = false)
    ∧ ((st.socketClosedAtStart
          || ((st.firefoxProc || (!st.socketClosedAtStart && st.addonsActor))
              && st.socketClosesDuringWait)) = false →
        ∀ dirs, CleanupAction.removeTmpDirs dirs ∉ disconnectFirefoxAndCleanup st)
    ∧ (∀ dirs, st.launchTmpDirs = some dirs → dirs ≠ [] →
        (st.socketClosedAtStart
          || ((st.firefoxProc || (!st.socketClosedAtStart && st.addonsActor))
              && st.socketClosesDuringWait)) = true →
        ∃ pre, disconnectFirefoxAndCleanup st
          = pre ++ [CleanupAction.delay500ms, CleanupAction.removeTmpDirs dirs]) := by
  rcases st with ⟨w, term, proc, c0, ad, cw, tmp⟩
  simp only at hterm
  subst hterm
  refine ⟨?_, ?_, ?_, ?_, ?_⟩
  · intro hp
    simp only at hp
    subst hp
    exact cleanup_proc_case w c0 ad cw tmp
  · intro hp
    simp only at hp
    subst hp
    exact cleanup_install_iff w c0 ad cw tmp
  · exact cleanup_disconnect_iff w proc c0 ad cw tmp
  · intro hcl dirs
    exact cleanup_no_remove_when_open w proc c0 ad cw tmp dirs hcl
  · intro dirs htmp hne hcl
    simp only at htmp
    subst htmp
    exact cleanup_remove_suffix w proc c0 ad cw dirs hne hcl

theorem disconnectFirefoxAndCleanup_spec_witness :
    CleanupAction.installTerminatorAddon
        ∈ disconnectFirefoxAndCleanup ⟨false, true, false, false, true, true, some ["/tmp/p1"]⟩
    ∧ (∃ pre, disconnectFirefoxAndCleanup ⟨false, true, false, false, true, true, some ["/tmp/p1"]⟩
        = pre ++ [CleanupAction.delay500ms, CleanupAction.removeTmpDirs ["/tmp/p1"]]) := by
  have h := disconnectFirefoxAndCleanup_spec
    ⟨false, true, false, false, true, true, some ["/tmp/p1"]⟩ rfl
  refine ⟨(h.2.1 rfl).mpr ⟨rfl, rfl⟩, h.2.2.2.2 ["/tmp/p1"] rfl (by decide) rfl⟩

/-- The traits of the Root actor's initial response consulted by
`FirefoxDebugSession.start`. -/
structure RootTraits where
  webExtensionAddonConnect : Bool
  nativeLogpoints : Bool
  supportsEnableWindowGlobalThreadActors : Bool
deriving DecidableEq, Repr

/-- Outcome of the `onInit` handler: session start is rejected with a
user-visible message, or it proceeds to discovery with the computed
`processDescriptorMode`. -/
inductive InitOutcome where
  | rejected (msg : String)
  | proceed (processDescriptorMode : Bool)
deriving DecidableEq, Repr

/-- The rejection message of the `onInit` handler. -/
def unsupportedFirefoxMessage : String :=
  "Your version of Firefox is not supported anymore - please upgrade to Firefox 68 or later"

/-- The version gate of the `onInit` handler installed by
`FirefoxDebugSession.start`. -/
def onInit (traits : RootTraits) : InitOutcome :=
  if traits.webExtensionAddonConnect && !traits.nativeLogpoints then
    .rejected unsupportedFirefoxMessage
  else
    .proceed traits.supportsEnableWindowGlobalThreadActors

/-- C8: on the Root init packet, session start is rejected with the
user-visible "not supported anymore" message exactly when the server traits
indicate an unsupported engine (`webExtensionAddonConnect` set without
`nativeLogpoints`); otherwise start proceeds to discovery, selecting process
descriptor mode from the `supportsEnableWindowGlobalThreadActors` trait. -/
theorem onInit_rejects_iff_unsupported (traits : RootTraits) :
    (onInit traits = .rejected unsupportedFirefoxMessage
      ↔ (traits.webExtensionAddonConnect = true ∧ traits.nativeLogpoints = false))
    ∧ (¬ (traits.webExtensionAddonConnect = true ∧ traits.nativeLogpoints = false) →
        onInit traits = .proceed traits.supportsEnableWindowGlobalThreadActors) := by
  rcases traits with ⟨wx, nl, sp⟩
  cases wx <;> cases nl <;> simp [onInit]

theorem onInit_rejects_iff_unsupported_witness :
    onInit ⟨true, false, false⟩ = .rejected unsupportedFirefoxMessage
    ∧ onInit ⟨true, true, true⟩ = .proceed true :=
  ⟨(onInit_rejects_iff_unsupported ⟨true, false, false⟩).1.mpr ⟨rfl, rfl⟩,
   (onInit_rejects_iff_unsupported ⟨true, true, true⟩).2 (by simp)⟩

/-- Modelled from the spec: `BaseActorProxy.sendCachedRequest` (the actor
proxy base class is not under src/; only its caller
`DescriptorActorProxy.getWatcher` is). Per the spec, if a prior successful
response exists for the key, the cached mapped value is returned without
I/O; otherwise the request is performed and the mapped value memoized. The
returned `Nat` counts the wire requests issued by the call. -/
def sendCachedRequest {β γ α : Type} (cache : List (String × α)) (key : String)
    (payload : β) (performRequest : β → γ) (map : γ → α) :
    List (String × α) × α × Nat :=
  match cache.find? (fun p => p.1 == key) with
  | some p => (cache, p.2, 0)
  | none =>
    let v := map (performRequest payload)
    ((key, v) :: cache, v, 1)

/-- The traits carried by a `getWatcher` response. -/
structure GetWatcherTraits where
  content_script : Bool
deriving DecidableEq, Repr

/-- `FirefoxDebugProtocol.GetWatcherResponse`. -/
structure GetWatcherResponse where
  actor : String
  traits : GetWatcherTraits
deriving DecidableEq, Repr

/-- The data of the `WatcherActorProxy` constructed by `getWatcher`. -/
structure WatcherActorProxyModel where
  name : String
  supportsContentScriptTargets : Bool
deriving DecidableEq, Repr

/-- The request payload sent by `DescriptorActorProxy.getWatcher`. -/
structure GetWatcherRequest where
  type : String
  isServerTargetSwitchingEnabled : Bool
  isPopupDebuggingEnabled : Bool
deriving DecidableEq, Repr

/-- `DescriptorActorProxy.getWatcher`: a cached request under the key
`getWatcher` whose map builds a `WatcherActorProxy` from the response. -/
def getWatcher (cache : List (String × WatcherActorProxyModel))
    (performRequest : GetWatcherRequest → GetWatcherResponse) :
    List (String × WatcherActorProxyModel) × WatcherActorProxyModel × Nat :=
  sendCachedRequest cache "getWatcher"
    (⟨"getWatcher", true, false⟩ : GetWatcherRequest) performRequest
    (fun response => ⟨response.actor, response.traits.content_script⟩)

/-- C9: invoking the cached `getWatcher` twice on one proxy yields identical
mapped values (the same `WatcherActorProxy`) and issues at most one wire
request in total; and a prior successful response for the key is returned
as-is with no I/O. -/
theorem getWatcher_cache_idempotent
    (cache : List (String × WatcherActorProxyModel))
    (performRequest : GetWatcherRequest → GetWatcherResponse) :
    ((getWatcher (getWatcher cache performRequest).1 performRequest).2.1
        = (getWatcher cache performRequest).2.1
      ∧ (getWatcher cache performRequest).2.2
          + (getWatcher (getWatcher cache performRequest).1 performRequest).2.2 ≤ 1)
    ∧ (∀ p, cache.find? (fun q => q.1 == "getWatcher") = some p →
        getWatcher cache performRequest = (cache, p.2, 0)) := by
  constructor
  · rcases hf : cache.find? (fun q => q.1 == "getWatcher") with _ | p
    · simp only [getWatcher, sendCachedRequest, hf]
      simp
    · simp only [getWatcher, sendCachedRequest, hf]
      simp
  · intro p hp
    simp only [getWatcher, sendCachedRequest, hp]

theorem getWatcher_cache_idempotent_witness :
    (getWatcher [] (fun _ => ⟨"watcher1", ⟨true⟩⟩)).2.2
        + (getWatcher (getWatcher [] (fun _ => ⟨"watcher1", ⟨true⟩⟩)).1
            (fun _ => ⟨"watcher1", ⟨true⟩⟩)).2.2 ≤ 1
    ∧ getWatcher [("getWatcher", ⟨"watcher1", true⟩)] (fun _ => ⟨"watcher2", ⟨false⟩⟩)
        = ([("getWatcher", ⟨"watcher1", true⟩)], ⟨"watcher1", true⟩, 0) :=
  ⟨(getWatcher_cache_idempotent [] (fun _ => ⟨"watcher1", ⟨true⟩⟩)).1.2,
   (getWatcher_cache_idempotent [("getWatcher", ⟨"watcher1", true⟩)]
      (fun _ => ⟨"watcher2", ⟨false⟩⟩)).2 ("getWatcher", ⟨"watcher1", true⟩)
      (by decide)⟩

/-- One entry of a `tabs` response (`tab.actor`, `tab.title`, `tab.url`). -/
structure TabInfo where
  actor : String
  title : String
  url : String
deriving DecidableEq, Repr

/-- The data of a `TabActorProxy` (`name`, `title`, `url`). -/
structure TabActorProxyModel where
  name : String
  title : String
  url : String
deriving DecidableEq, Repr

/-- The `tabs` map of `RootActorProxy`, a JS `Map` keyed by actor name. -/
abbrev TabMap := List (String × TabActorProxyModel)

/-- `Map.set` for the tabs map. -/
def tabMapSet (m : TabMap) (k : String) (v : TabActorProxyModel) : TabMap :=
  (k, v) :: m.filter (fun p => p.1 != k)

/-- `Map.get`/`Map.has` for the tabs map. -/
def tabMapGet (m : TabMap) (k : String) : Option TabActorProxyModel :=
  (m.find? (fun p => p.1 == k)).map (fun p => p.2)

/-- The state of `RootActorProxy`: the current tabs map and the number of
queued pending `fetchTabs` requests. -/
structure RootState where
  tabs : TabMap
  pendingTabsRequests : Nat
deriving DecidableEq, Repr

/-- Externally visible effects of `RootActorProxy.receiveResponse`. -/
inductive RootEffect where
  | emitInit
  | emitTabOpened (actorName : String)
  | emitTabClosed (actorName : String)
  | resolveTabsRequest (tabs : TabMap)
  | warnNoPendingRequest
  | retryListTabsAfter100ms
  | emitTabListChanged
  | warnUnknownMessage
deriving DecidableEq, Repr

/-- The shapes of responses dispatched by `RootActorProxy.receiveResponse`
(`applicationType` present, `tabs` present, `type === 'tabListChanged'`,
anything else). -/
inductive RootResponse where
  | initResponse
  | tabsResponse (tabs : List TabInfo)
  | tabListChanged
  | other
deriving DecidableEq, Repr

/-- The `tabsResponse.tabs.forEach` loop: build `currentTabs`, re-using
existing proxies and emitting `tabOpened` for new ones. -/
def buildCurrentTabs (old : TabMap) (ts : List TabInfo) :
    TabMap × List RootEffect :=
  ts.foldl (fun acc tab =>
    match tabMapGet old tab.actor with
    | some tabActor => (tabMapSet acc.1 tab.actor tabActor, acc.2)
    | none => (tabMapSet acc.1 tab.actor ⟨tab.actor, tab.title, tab.url⟩,
               acc.2 ++ [RootEffect.emitTabOpened tab.actor]))
    ([], [])

/-- `RootActorProxy.receiveResponse`. A `tabs` response carrying zero tabs
only logs and re-issues `listTabs` after 100 ms; otherwise the new tab map
is built, `tabClosed` is emitted for disappeared tabs, the map is replaced
and one pending `fetchTabs` request is resolved with it
(`PendingRequests.resolveOne` logs when no request is pending). -/
def receiveResponse (st : RootState) : RootResponse → RootState × List RootEffect
  | .initResponse => (st, [.emitInit])
  | .tabsResponse ts =>
    if ts.length == 0 then
      (st, [.retryListTabsAfter100ms])
    else
      let bc := buildCurrentTabs st.tabs ts
      let closedEffects := st.tabs.filterMap (fun p =>
        if (tabMapGet bc.1 p.2.name).isNone
        then some (RootEffect.emitTabClosed p.2.name) else none)
      let resolveEffects :=
        if 0 < st.pendingTabsRequests then [RootEffect.resolveTabsRequest bc.1]
        else [RootEffect.warnNoPendingRequest]
      (⟨bc.1, st.pendingTabsRequests - 1⟩,
       bc.2 ++ closedEffects ++ resolveEffects)
  | .tabListChanged => (st, [.emitTabListChanged])
  | .other => (st, [.warnUnknownMessage])

theorem buildCurrentTabs_fst_ne_nil (ts : List TabInfo) (old : TabMap) :
    ∀ acc : TabMap × List RootEffect, acc.1 ≠ [] ∨ ts ≠ [] →
      (ts.foldl (fun acc tab =>
        match tabMapGet old tab.actor with
        | some tabActor => (tabMapSet acc.1 tab.actor tabActor, acc.2)
        | none => (tabMapSet acc.1 tab.actor ⟨tab.actor, tab.title, tab.url⟩,
                   acc.2 ++ [RootEffect.emitTabOpened tab.actor])) acc).1 ≠ [] := by
  induction ts with
  | nil =>
    intro acc h
    rcases h with h | h
    · simpa using h
    · exact absurd rfl h
  | cons tab ts ih =>
    intro acc _
    simp only [List.foldl_cons]
    rcases hget : tabMapGet old tab.actor with _ | tabActor
    · exact ih _ (Or.inl (by simp [tabMapSet]))
    · exact ih _ (Or.inl (by simp [tabMapSet]))

theorem buildCurrentTabs_snd_opened (ts : List TabInfo) (old : TabMap) :
    ∀ (acc : TabMap × List RootEffect) (e : RootEffect),
      e ∈ (ts.foldl (fun acc tab =>
        match tabMapGet old tab.actor with
        | some tabActor => (tabMapSet acc.1 tab.actor tabActor, acc.2)
        | none => (tabMapSet acc.1 tab.actor ⟨tab.actor, tab.title, tab.url⟩,
                   acc.2 ++ [RootEffect.emitTabOpened tab.actor])) acc).2 →
      e ∈ acc.2 ∨ ∃ n, e = RootEffect.emitTabOpened n := by
  induction ts with
  | nil =>
    intro acc e he
    exact Or.inl he
  | cons tab ts ih =>
    intro acc e he
    simp only [List.foldl_cons] at he
    rcases hget : tabMapGet old tab.actor with _ | tabActor <;> rw [hget] at he
    · have h2 := ih (tabMapSet acc.1 tab.actor ⟨tab.actor, tab.title, tab.url⟩,
        acc.2 ++ [RootEffect.emitTabOpened tab.actor]) e he
      rcases h2 with hin | hop
      · rcases List.mem_append.mp hin with hin2 | hin2
        · exact Or.inl hin2
        · rw [List.mem_singleton] at hin2
          exact Or.inr ⟨tab.actor, hin2⟩
      · exact Or.inr hop
    · have h2 := ih (tabMapSet acc.1 tab.actor tabActor, acc.2) e he
      rcases h2 with hin | hop
      · exact Or.inl hin
      · exact Or.inr hop

/-- C10: whenever `receiveResponse` resolves a pending `fetchTabs` promise,
the tab map it resolves with is non-empty; a `tabs` response carrying zero
tabs does not resolve any pending request and only re-issues `listTabs`
after 100 ms, leaving the state unchanged; so callers of `fetchTabs` never
observe an empty tab list. -/
theorem fetchTabs_never_resolves_empty :
    (∀ (st : RootState) (r : RootResponse) (m : TabMap),
        RootEffect.resolveTabsRequest m ∈ (receiveResponse st r).2 → m ≠ [])
    ∧ (∀ st : RootState, receiveResponse st (.tabsResponse [])
        = (st, [RootEffect.retryListTabsAfter100ms])) := by
  constructor
  · intro st r m hm
    cases r with
    | initResponse => simp [receiveResponse] at hm
    | tabListChanged => simp [receiveResponse] at hm
    | other => simp [receiveResponse] at hm
    | tabsResponse ts =>
      rcases ts with _ | ⟨tab, ts2⟩
      · simp [receiveResponse] at hm
      · have hc : (((tab :: ts2).length == 0) : Bool) = false := by simp
        simp only [receiveResponse, hc, Bool.false_eq_true, if_false,
          buildCurrentTabs] at hm
        rcases List.mem_append.mp hm with hm1 | hm2
        · rcases List.mem_append.mp hm1 with hma | hmb
          · have h2 := buildCurrentTabs_snd_opened (tab :: ts2) st.tabs
              ([], []) _ hma
            rcases h2 with h3 | ⟨n, h3⟩
            · exact absurd h3 (List.not_mem_nil _)
            · simp at h3
          · simp only [List.mem_filterMap] at hmb
            obtain ⟨p, _, hfp⟩ := hmb
            by_cases hq : (tabMapGet ((tab :: ts2).foldl (fun acc tab =>
                match tabMapGet st.tabs tab.actor with
                | some tabActor => (tabMapSet acc.1 tab.actor tabActor, acc.2)
                | none => (tabMapSet acc.1 tab.actor
                    ⟨tab.actor, tab.title, tab.url⟩,
                    acc.2 ++ [RootEffect.emitTabOpened tab.actor]))
                ([], [])).1 p.2.name).isNone
              <;> simp [hq] at hfp
        · by_cases hp : 0 < st.pendingTabsRequests
          · simp only [hp, if_true, List.mem_singleton,
              RootEffect.resolveTabsRequest.injEq] at hm2
            subst hm2
            exact buildCurrentTabs_fst_ne_nil (tab :: ts2) st.tabs
              ([], []) (Or.inr (by simp))
          · simp [hp] at hm2
  · intro st
    rfl

theorem fetchTabs_never_resolves_empty_witness :
    RootEffect.resolveTabsRequest [("tab1", ⟨"tab1", "Title", "u"⟩)]
        ∈ (receiveResponse ⟨[], 1⟩
            (RootResponse.tabsResponse [⟨"tab1", "Title", "u"⟩])).2
    ∧ ([("tab1", ⟨"tab1", "Title", "u"⟩)] : TabMap) ≠ [] :=
  ⟨by decide,
   fetchTabs_never_resolves_empty.1 ⟨[], 1⟩
     (RootResponse.tabsResponse [⟨"tab1", "Title", "u"⟩])
     [("tab1", ⟨"tab1", "Title", "u"⟩)] (by decide)⟩
